import Mathlib

/-!
Formal model of `util/kustomize/kustomize.go` (argo-cd kustomize wrapper).

The Go file drives the `kustomize` CLI: it applies customizations
(prefix/suffix/images/replicas/labels/annotations/namespace/patches/components)
via `kustomize edit` invocations, merges patches into the on-disk
kustomization file, runs `kustomize build`, and scans the produced resource
tree for container images.

External collaborators (process execution `executil.Run`, credentials
`creds.Environ`, YAML codec `yaml.Unmarshal`/`Marshal`, `kube.SplitYAML`,
filesystem, `filepath.Rel`, `GetCommandArgsToLog`) are modelled as oracle
fields of a `World` structure; the control flow, guards, argument assembly,
error propagation and log bookkeeping of the Go file are translated directly.
-/

namespace Kustomize

/-- A parsed semantic version (`Masterminds/semver` `Version`).  Only the
numeric core plus an optional pre-release tag is modelled; the claims compare
only versions without pre-release tags. -/
structure Version where
  major : Nat
  minor : Nat
  patch : Nat
  pre : Option String
deriving DecidableEq

/-- `semver.Version.LessThan`: lexicographic on major/minor/patch; on a tie a
version with a pre-release tag sorts below one without (the identifier-level
comparison of the third-party library is approximated by string order; no
claim exercises it). -/
def Version.lessThan (a b : Version) : Bool :=
  if a.major ≠ b.major then decide (a.major < b.major)
  else if a.minor ≠ b.minor then decide (a.minor < b.minor)
  else if a.patch ≠ b.patch then decide (a.patch < b.patch)
  else match a.pre, b.pre with
    | some _, none => true
    | none, _ => false
    | some x, some y => decide (x < y)

/-- `semver.MustParse("v3.8.5")`, the labels/annotations encoding threshold. -/
def v385 : Version := ⟨3, 8, 5, none⟩

/-- `semver.MustParse("v3.7.0")`, the components feature threshold. -/
def v370 : Version := ⟨3, 7, 0, none⟩

/-- `semver.MustParse("v5.3.0")`, the helm build-flags threshold. -/
def v530 : Version := ⟨5, 3, 0, none⟩

/-- `unknownVersion = semver.MustParse("v99.99.99")`, the maximal sentinel. -/
def unknownVersionModel : Version := ⟨99, 99, 99, none⟩

/-- Generic YAML-like document tree (the `any` values produced by
`yaml.Unmarshal` / consumed by `yaml.Marshal`): mappings, sequences and
scalars.  Mappings are association lists in iteration order. -/
inductive Yaml where
  | str (s : String)
  | num (n : Int)
  | bool (b : Bool)
  | null
  | seq (l : List Yaml)
  | map (m : List (String × Yaml))

/-- Go map lookup `m[key]` on the association-list representation. -/
def lookupY : List (String × Yaml) → String → Option Yaml
  | [], _ => none
  | (k, v) :: rest, key => if k = key then some v else lookupY rest key

/-- Go map update `m[key] = v`: replaces the binding if present, otherwise
adds it. -/
def setKeyY : List (String × Yaml) → String → Yaml → List (String × Yaml)
  | [], key, v => [(key, v)]
  | (k, w) :: rest, key, v =>
    if k = key then (key, v) :: rest else (k, w) :: setKeyY rest key v

/-- The string form `fmt.Sprintf("%s", x)` of a scanned `image` value.  In
manifests images are strings; the rendering of non-string scalars and
composites is an opaque stand-in (no claim depends on it). -/
def yamlToString : Yaml → String
  | .str s => s
  | .num n => toString n
  | .bool b => if b then "true" else "false"
  | .null => "<nil>"
  | .seq _ => "<seq>"
  | .map _ => "<map>"

/-- `fmt.Sprintf("%s:%s", labelName, labelValue)`. -/
def pairArg (p : String × String) : String := p.1 ++ ":" ++ p.2

/-- Comma-joined rendering of a token list (specification-side description of
the single-argument encoding). -/
def commaJoin : List String → String
  | [] => ""
  | [x] => x
  | x :: xs => x ++ "," ++ commaJoin xs

/-- `mapToEditAddArgs` (kustomize.go:108-125).  The Go map is given as its
iteration sequence; `ver` is the process-wide cached version that the source
reads through `getSemverSafe`.  Below v3.8.5 all `key:value` pairs are folded
into one comma-separated argument; at or above, one argument per pair. -/
def mapToEditAddArgs (val : List (String × String)) (ver : Version) : List String :=
  if ver.lessThan v385 then
    [val.foldl (fun arg p => (if arg ≠ "" then arg ++ "," else arg) ++ pairArg p) ""]
  else
    val.map pairArg

/-- The patches merge of `Build` (kustomize.go:304-322): if the parsed
kustomization map has a `patches` key it must hold a sequence, to which the
new patches are appended; otherwise `patches` is set to the new list. -/
def mergeKustomizationPatches (kmap : List (String × Yaml)) (ps : List Yaml) :
    Except String (List (String × Yaml)) :=
  match lookupY kmap "patches" with
  | some v =>
    match v with
    | .seq old => .ok (setKeyY kmap "patches" (.seq (old ++ ps)))
    | _ => .error "expected patches field in kustomization.yaml to be a list"
  | none => .ok (setKeyY kmap "patches" (.seq ps))

/-- The `containers`/`initContainers` arm of `getImages` (kustomize.go:517-524):
each mapping-shaped sequence element contributes its `image` field directly,
with no recursion into the element. -/
def containerSeq : List Yaml → List String
  | [] => []
  | .map m :: rest =>
    (match lookupY m "image" with
     | some img => [yamlToString img]
     | none => []) ++ containerSeq rest
  | _ :: rest => containerSeq rest

mutual

/-- `getImages` (kustomize.go:512-537) over a mapping's entry sequence: a
`containers`/`initContainers` key with a sequence value is scanned by
`containerSeq`; any other sequence is recursed into at its mapping-shaped
elements; a mapping value is recursed into directly; scalars contribute
nothing. -/
def getImagesEntries : List (String × Yaml) → List String
  | [] => []
  | (key, v) :: rest => entryImages key v ++ getImagesEntries rest

/-- The per-key contribution inside the `range object` loop of `getImages`. -/
def entryImages : String → Yaml → List String
  | key, .seq elems =>
    if key = "containers" ∨ key = "initContainers" then containerSeq elems
    else genericSeq elems
  | _, .map m => getImagesEntries m
  | _, _ => []

/-- The generic sequence arm of `getImages` (kustomize.go:526-530): recurse
into mapping-shaped elements only. -/
def genericSeq : List Yaml → List String
  | [] => []
  | .map m :: rest => getImagesEntries m ++ genericSeq rest
  | _ :: rest => genericSeq rest

end

/-- `getImageParameters` (kustomize.go:503-510): concatenate the images of
every resource object (each given by its top-level mapping entries) and sort
the result (`sort.Strings`; the sorted permutation is unique, so Go's sort
and insertion sort agree). -/
def getImageParameters (objs : List (List (String × Yaml))) : List String :=
  List.insertionSort (fun a b : String => a ≤ b) (objs.flatMap getImagesEntries)

/-- `strings.ReplaceAll` on character lists, fuelled for structural
recursion: replaces every non-overlapping occurrence of `pat`, scanning left
to right.  Every recursive call consumes at least one character of `s`, so
`s.length + 1` fuel is exact.  For the empty pattern Go inserts `rep` before
every character and at the end. -/
def replaceAllFuel : Nat → List Char → List Char → List Char → List Char
  | 0, s, _, _ => s
  | fuel + 1, s, pat, rep =>
    if pat = [] then
      match s with
      | [] => rep
      | c :: rest => rep ++ c :: replaceAllFuel fuel rest pat rep
    else
      match s with
      | [] => []
      | c :: rest =>
        if pat.isPrefixOf (c :: rest) then
          rep ++ replaceAllFuel fuel ((c :: rest).drop pat.length) pat rep
        else
          c :: replaceAllFuel fuel rest pat rep

/-- `strings.ReplaceAll` on character lists. -/
def replaceAllC (s pat rep : List Char) : List Char :=
  replaceAllFuel (s.length + 1) s pat rep

/-- `strings.ReplaceAll` on strings. -/
def replaceAllStr (s pat rep : String) : String :=
  String.mk (replaceAllC s.data pat.data rep.data)

/-- `strings.TrimSpace` on character lists. -/
def trimSpaceC (s : List Char) : List Char :=
  ((s.dropWhile Char.isWhitespace).reverse.dropWhile Char.isWhitespace).reverse

/-- `strings.TrimPrefix pat` on character lists. -/
def trimPrefixC (pat s : List Char) : List Char :=
  if pat.isPrefixOf s then s.drop pat.length else s

/-- `strings.TrimSuffix pat` on character lists. -/
def trimSuffixC (pat s : List Char) : List Char :=
  if pat.isSuffixOf s then s.take (s.length - pat.length) else s

/-- The pure text normalization of `versionWithBinaryPath`
(kustomize.go:489-500) applied to the raw `kustomize version --short` output:
trim space, trim a wrapping `\x7b`/`\x7d` pair, trim space again, collapse
doubled spaces, strip the `kustomize/` product prefix. -/
def normalizeVersionOutput (raw : String) : String :=
  let v1 := trimSpaceC raw.data
  let v2 := trimPrefixC ['\x7b'] v1
  let v3 := trimSuffixC ['\x7d'] v2
  let v4 := trimSpaceC v3
  let v5 := replaceAllC v4 [' ', ' '] [' ']
  let v6 := trimPrefixC ("kustomize/".data) v5
  String.mk v6

/-- A character of a semver pre-release/build identifier: `[0-9A-Za-z-]`. -/
def isIdentChar (c : Char) : Bool := c.isDigit || c.isAlpha || c = '-'

/-- Greedy `[0-9]+`-style scan: longest digit prefix and the remainder. -/
def takeDigitsC : List Char → List Char × List Char
  | [] => ([], [])
  | c :: rest =>
    if c.isDigit then
      let (a, b) := takeDigitsC rest
      (c :: a, b)
    else ([], c :: rest)

/-- Greedy `[0-9A-Za-z-]+`-style scan. -/
def takeIdentsC : List Char → List Char × List Char
  | [] => ([], [])
  | c :: rest =>
    if isIdentChar c then
      let (a, b) := takeIdentsC rest
      (c :: a, b)
    else ([], c :: rest)

/-- The `(\.[0-9A-Za-z-]+)*` part of the semver regex, with fuel (each
iteration consumes at least two characters, so `l.length` fuel is exact). -/
def dotIdentStarFuel : Nat → List Char → List Char × List Char
  | 0, l => ([], l)
  | fuel + 1, l =>
    match l with
    | '.' :: rest =>
      let (ids, r) := takeIdentsC rest
      if ids.isEmpty then ([], l)
      else
        let (more, r2) := dotIdentStarFuel fuel r
        ('.' :: ids ++ more, r2)
    | _ => ([], l)

/-- The `(\.[0-9A-Za-z-]+)*` part of the semver regex. -/
def dotIdentStar (l : List Char) : List Char × List Char :=
  dotIdentStarFuel l.length l

/-- The optional `(\.[0-9]+)` group of `semVerRegex` (kustomize.go:432). -/
def matchDotGroup (l : List Char) : List Char × List Char :=
  match l with
  | '.' :: rest =>
    let (ds, r) := takeDigitsC rest
    if ds.isEmpty then ([], l) else ('.' :: ds, r)
  | _ => ([], l)

/-- The optional `(-([0-9A-Za-z-]+(\.[0-9A-Za-z-]+)*))` pre-release group. -/
def matchDash (l : List Char) : List Char × List Char :=
  match l with
  | '-' :: rest =>
    let (ids, r) := takeIdentsC rest
    if ids.isEmpty then ([], l)
    else
      let (more, r2) := dotIdentStar r
      ('-' :: ids ++ more, r2)
  | _ => ([], l)

/-- The optional `(\+([0-9A-Za-z-]+(\.[0-9A-Za-z-]+)*))` build group. -/
def matchPlus (l : List Char) : List Char × List Char :=
  match l with
  | '+' :: rest =>
    let (ids, r) := takeIdentsC rest
    if ids.isEmpty then ([], l)
    else
      let (more, r2) := dotIdentStar r
      ('+' :: ids ++ more, r2)
  | _ => ([], l)

/-- Greedy match of `semVerRegex` anchored at the head of `l`
(`v?([0-9]+)(\.[0-9]+)?(\.[0-9]+)?(-pre)?(\+build)?`); returns the matched
characters. -/
def matchSemverAt (l : List Char) : Option (List Char) :=
  let (vtag, l1) :=
    match l with
    | 'v' :: r => ((['v'] : List Char), r)
    | _ => (([] : List Char), l)
  let (d1, l2) := takeDigitsC l1
  if d1.isEmpty then none
  else
    let (g2, l3) := matchDotGroup l2
    let (g3, l4) := matchDotGroup l3
    let (pre, l5) := matchDash l4
    let (bld, _) := matchPlus l5
    some (vtag ++ d1 ++ g2 ++ g3 ++ pre ++ bld)

/-- `semverRegex.FindStringSubmatch` (kustomize.go:450): the leftmost match of
the semver pattern in the string, if any. -/
def findFirstSemver (l : List Char) : Option (List Char) :=
  match matchSemverAt l with
  | some m => some m
  | none =>
    match l with
    | [] => none
    | _ :: t => findFirstSemver t

/-- Decimal digits to a natural number. -/
def parseNatC (l : List Char) : Nat :=
  l.foldl (fun n c => n * 10 + (c.toNat - 48)) 0

/-- `semver.NewVersion` applied to a string produced by the regex match:
strips a leading `v`, reads up to three dot-separated numeric components
(missing ones default to 0) and keeps any `-pre` tail (up to build metadata)
as the pre-release tag. -/
def semverNewVersion (s : List Char) : Option Version :=
  let s1 := match s with
    | 'v' :: r => r
    | _ => s
  let (d1, r1) := takeDigitsC s1
  if d1.isEmpty then none
  else
    let (g2, r2) := matchDotGroup r1
    let (g3, r3) := matchDotGroup r2
    let minor := match g2 with
      | [] => 0
      | _ :: ds => parseNatC ds
    let patch := match g3 with
      | [] => 0
      | _ :: ds => parseNatC ds
    let pre : Option String := match r3 with
      | '-' :: rest => some (String.mk (rest.takeWhile (fun c => c ≠ '+')))
      | _ => none
    some ⟨parseNatC d1, minor, patch, pre⟩

/-- `getSemver` (kustomize.go:444-456) as a function of the
`kustomize version --short` invocation result (`Except.error` = the
invocation failed). -/
def getSemverModel (runOut : Except String String) : Except String Version :=
  match runOut with
  | .error e => .error ("could not get kustomize version: " ++ e)
  | .ok raw =>
    let verStr := normalizeVersionOutput raw
    match findFirstSemver verStr.data with
    | none =>
      .error ("expected string that includes semver formatted version but got: \x27" ++
        verStr ++ "\x27")
    | some m =>
      match semverNewVersion m with
      | some v => .ok v
      | none => .error "invalid semantic version"

/-- `getSemverSafe` (kustomize.go:461-474) modulo the process-wide cache: the
parsed version, or the maximal sentinel `v99.99.99` when parsing or the
invocation fails — never an error. -/
def getSemverSafeModel (runOut : Except String String) : Version :=
  match getSemverModel runOut with
  | .ok v => v
  | .error _ => unknownVersionModel

/-- `strings.Fields` worker: accumulates the current word (reversed). -/
def fieldsGo (cur : List Char) (l : List Char) : List String :=
  match l with
  | [] => if cur.isEmpty then [] else [String.mk cur.reverse]
  | c :: rest =>
    if c.isWhitespace then
      if cur.isEmpty then fieldsGo [] rest
      else String.mk cur.reverse :: fieldsGo [] rest
    else fieldsGo (c :: cur) rest

/-- `strings.Fields`: whitespace-separated tokens. -/
def fields (s : String) : List String := fieldsGo [] s.data

/-- `strings.Contains` on character lists. -/
def containsSubC : List Char → List Char → Bool
  | [], pat => pat.isEmpty
  | c :: t, pat => pat.isPrefixOf (c :: t) || containsSubC t pat

/-- `isHelmEnabled` (kustomize.go:425-427). -/
def isHelmEnabled (buildOptions : String) : Bool :=
  containsSubC buildOptions.data "--enable-helm".data

/-- The `kustomize` receiver struct (kustomize.go:58-73); the fields the
claims exercise. -/
structure Kmodel where
  repoRoot : String
  path : String
  binaryPath : String

/-- `getBinaryPath` (kustomize.go:99-104). -/
def getBinaryPath (k : Kmodel) : String :=
  if k.binaryPath = "" then "kustomize" else k.binaryPath

/-- `v1alpha1.ApplicationSourceKustomize`: the customization specification.
Maps are given as iteration sequences; a replica count is the result of
`GetIntCount` (which may fail).  `namePfx` models the `NamePrefix` field and
`targetNamespace` the `Namespace` field. -/
structure KOpts where
  namePfx : String := ""
  nameSuffix : String := ""
  images : List String := []
  replicas : List (String × Except String Int) := []
  commonLabels : List (String × String) := []
  forceCommonLabels : Bool := false
  labelWithoutSelector : Bool := false
  labelIncludeTemplates : Bool := false
  commonAnnotations : List (String × String) := []
  forceCommonAnnotations : Bool := false
  commonAnnotationsEnvsubst : Bool := false
  targetNamespace : String := ""
  patches : List Yaml := []
  components : List String := []
  ignoreMissingComponents : Bool := false

/-- `BuildOpts` (kustomize.go:34-37). -/
structure BuildOptsModel where
  kubeVersion : String := ""
  apiVersions : List String := []

/-- The external collaborators of one `Build` call, as oracles:
the cached tool version (`getSemverSafe`), `creds.Environ`, `executil.Run`
(indexed by invocation count), `GetCommandArgsToLog`, `Envsubst`,
`findKustomizeFile`, the reads/writes of the kustomization file and its
parsed tree, `os.OpenRoot`/`filepath.Rel`/`root.Stat` for components, and
`kube.SplitYAML` (each object given by its top-level mapping entries). -/
structure World where
  version : Version
  credsOk : Except String Unit
  run : Nat → Except String String
  logCmd : String → List String → String
  envsubst : String → String
  kustFile : Option String
  readOk : Except String Unit
  parsed : Except String Yaml
  marshalOk : Except String Unit
  statFileOk : Except String Unit
  writeOk : Except String Unit
  openRoot : Except String Unit
  rel : String → Except String String
  stat : String → Bool
  splitYaml : String → Except String (List (List (String × Yaml)))

/-- Per-build bookkeeping: the `commands` log (kustomize.go:129) and the
number of external invocations performed so far. -/
structure BuildState where
  commands : List String
  runs : Nat
deriving DecidableEq

/-- One external invocation: the command is logged
(`commands = append(commands, executil.GetCommandArgsToLog(cmd))`) and
executed (`executil.Run`); a failure aborts with the underlying error. -/
def execRun (w : World) (st : BuildState) (bin : String) (args : List String) :
    Except (String × BuildState) (BuildState × String) :=
  let st2 : BuildState := ⟨st.commands ++ [w.logCmd bin args], st.runs + 1⟩
  match w.run st.runs with
  | .error e => .error (e, st2)
  | .ok out => .ok (st2, out)

/-- An `edit` invocation, whose stdout is discarded. -/
def editRun (w : World) (st : BuildState) (bin : String) (args : List String) :
    Except (String × BuildState) BuildState :=
  match execRun w st bin args with
  | .error e => .error e
  | .ok (st2, _) => .ok st2

/-- The `NamePrefix` step of `Build` (kustomize.go:167-175). -/
def namePrefixStep (k : Kmodel) (o : KOpts) (w : World) (st : BuildState) :
    Except (String × BuildState) BuildState :=
  if o.namePfx = "" then .ok st
  else editRun w st (getBinaryPath k) ["edit", "set", "nameprefix", "--", o.namePfx]

/-- The `NameSuffix` step of `Build` (kustomize.go:176-184). -/
def nameSuffixStep (k : Kmodel) (o : KOpts) (w : World) (st : BuildState) :
    Except (String × BuildState) BuildState :=
  if o.nameSuffix = "" then .ok st
  else editRun w st (getBinaryPath k) ["edit", "set", "namesuffix", "--", o.nameSuffix]

/-- The `Images` step of `Build` (kustomize.go:185-201): each image argument
is environment-expanded. -/
def imagesStep (k : Kmodel) (o : KOpts) (w : World) (st : BuildState) :
    Except (String × BuildState) BuildState :=
  match o.images with
  | [] => .ok st
  | _ :: _ =>
    editRun w st (getBinaryPath k) (["edit", "set", "image"] ++ o.images.map w.envsubst)

/-- The replica-argument loop of `Build` (kustomize.go:206-213): the first
failing `GetIntCount` aborts; otherwise `name=count` arguments in order. -/
def resolveReplicas : List (String × Except String Int) → Except String (List String)
  | [] => .ok []
  | (name, cnt) :: rest =>
    match cnt with
    | .error e => .error e
    | .ok n =>
      match resolveReplicas rest with
      | .error e => .error e
      | .ok args => .ok ((name ++ "=" ++ toString n) :: args)

/-- The `Replicas` step of `Build` (kustomize.go:203-222): count resolution
failure aborts before any invocation for this step. -/
def replicasStep (k : Kmodel) (o : KOpts) (w : World) (st : BuildState) :
    Except (String × BuildState) BuildState :=
  match o.replicas with
  | [] => .ok st
  | _ :: _ =>
    match resolveReplicas o.replicas with
    | .error e => .error (e, st)
    | .ok rargs => editRun w st (getBinaryPath k) (["edit", "set", "replicas"] ++ rargs)

/-- The `CommonLabels` step of `Build` (kustomize.go:224-247): optional
flags, value-level environment expansion (always), then the version-gated
pair encoding of `mapToEditAddArgs`. -/
def labelsStep (k : Kmodel) (o : KOpts) (w : World) (st : BuildState) :
    Except (String × BuildState) BuildState :=
  match o.commonLabels with
  | [] => .ok st
  | _ :: _ =>
    let args := ["edit", "add", "label"]
      ++ (if o.forceCommonLabels then ["--force"] else [])
      ++ (if o.labelWithoutSelector then ["--without-selector"] else [])
      ++ (if o.labelIncludeTemplates then ["--include-templates"] else [])
    let vals := o.commonLabels.map (fun p => (p.1, w.envsubst p.2))
    editRun w st (getBinaryPath k) (args ++ mapToEditAddArgs vals w.version)

/-- The `CommonAnnotations` step of `Build` (kustomize.go:249-271):
environment expansion only when `CommonAnnotationsEnvsubst` is set. -/
def annotationsStep (k : Kmodel) (o : KOpts) (w : World) (st : BuildState) :
    Except (String × BuildState) BuildState :=
  match o.commonAnnotations with
  | [] => .ok st
  | _ :: _ =>
    let args := ["edit", "add", "annotation"]
      ++ (if o.forceCommonAnnotations then ["--force"] else [])
    let vals :=
      if o.commonAnnotationsEnvsubst then
        o.commonAnnotations.map (fun p => (p.1, w.envsubst p.2))
      else o.commonAnnotations
    editRun w st (getBinaryPath k) (args ++ mapToEditAddArgs vals w.version)

/-- The `Namespace` step of `Build` (kustomize.go:273-281). -/
def namespaceStep (k : Kmodel) (o : KOpts) (w : World) (st : BuildState) :
    Except (String × BuildState) BuildState :=
  if o.targetNamespace = "" then .ok st
  else editRun w st (getBinaryPath k) ["edit", "set", "namespace", "--", o.targetNamespace]

/-- The synthetic command-log entry of the patch-merge step
(kustomize.go:335). -/
def patchesLogEntry : String :=
  "# kustomization.yaml updated with patches. There is no `kustomize edit` command for adding patches. In order to generate the manifests in your local environment, you will need to copy the patches into kustomization.yaml manually."

/-- The `Patches` step of `Build` (kustomize.go:283-336): locate the
kustomization file, read and parse it, require a top-level mapping, merge the
patches via `mergeKustomizationPatches`, marshal, stat and rewrite the file,
then record the synthetic log entry (no external invocation). -/
def patchesStep (_k : Kmodel) (o : KOpts) (w : World) (st : BuildState) :
    Except (String × BuildState) BuildState :=
  match o.patches with
  | [] => .ok st
  | _ :: _ =>
    match w.kustFile with
    | none => .error ("kustomization file not found in the path", st)
    | some _ =>
      match w.readOk with
      | .error e => .error ("failed to load kustomization.yaml: " ++ e, st)
      | .ok _ =>
        match w.parsed with
        | .error e => .error ("failed to unmarshal kustomization.yaml: " ++ e, st)
        | .ok doc =>
          match doc with
          | .map kmap =>
            match mergeKustomizationPatches kmap o.patches with
            | .error e => .error (e, st)
            | .ok _ =>
              match w.marshalOk with
              | .error e =>
                .error ("failed to marshal kustomization.yaml after adding patches: " ++ e, st)
              | .ok _ =>
                match w.statFileOk with
                | .error e => .error ("failed to stat kustomization.yaml: " ++ e, st)
                | .ok _ =>
                  match w.writeOk with
                  | .error e =>
                    .error ("failed to write kustomization.yaml with updated \x27patches\x27 field: " ++ e, st)
                  | .ok _ => .ok ⟨st.commands ++ [patchesLogEntry], st.runs⟩
          | _ =>
            .error ("expected kustomization.yaml to be type map[string]any", st)

/-- The missing-components filter of `Build` (kustomize.go:355-366): a
`filepath.Rel` failure aborts; a component whose resolved path fails the
existence check is silently dropped. -/
def filterComponents (w : World) : List String → Except String (List String)
  | [] => .ok []
  | c :: rest =>
    match w.rel c with
    | .error e => .error ("kustomize components path failed: " ++ e)
    | .ok p =>
      match filterComponents w rest with
      | .error e => .error e
      | .ok found => .ok (if w.stat p then c :: found else found)

/-- The component list actually passed to `edit add component`
(kustomize.go:346-367): all components, or — under
`IgnoreMissingComponents` — the existing ones only, after `os.OpenRoot`. -/
def resolveComponents (o : KOpts) (w : World) : Except String (List String) :=
  if o.ignoreMissingComponents then
    match w.openRoot with
    | .error e => .error ("failed to open the repo folder: " ++ e)
    | .ok _ => filterComponents w o.components
  else .ok o.components

/-- The `Components` step of `Build` (kustomize.go:338-378): versions below
v3.7.0 fail immediately with the "not supported" error; otherwise one
`edit add component` invocation on the resolved component list. -/
def componentsStep (k : Kmodel) (o : KOpts) (w : World) (st : BuildState) :
    Except (String × BuildState) BuildState :=
  match o.components with
  | [] => .ok st
  | _ :: _ =>
    if w.version.lessThan v370 then
      .error ("kustomize components require kustomize v3.7.0 and above", st)
    else
      match resolveComponents o w with
      | .error e => .error (e, st)
      | .ok found => editRun w st (getBinaryPath k) (["edit", "add", "component"] ++ found)

/-- The customization pipeline of `Build` (kustomize.go:166-379) in its fixed
order. -/
def editSteps (k : Kmodel) (o : KOpts) (w : World) (st : BuildState) :
    Except (String × BuildState) BuildState :=
  namePrefixStep k o w st >>= nameSuffixStep k o w >>= imagesStep k o w >>=
    replicasStep k o w >>= labelsStep k o w >>= annotationsStep k o w >>=
    namespaceStep k o w >>= patchesStep k o w >>= componentsStep k o w

/-- `parseKustomizeBuildOptions` (kustomize.go:410-423): `build <path>`, the
whitespace-tokenized raw options, and — when build options are present, the
version is at least v5.3.0 and helm is enabled — the structured helm flags. -/
def parseKustomizeBuildOptions (k : Kmodel) (buildOptions : String)
    (buildOpts : Option BuildOptsModel) (ver : Version) : List String :=
  ["build", k.path] ++ fields buildOptions ++
    (match buildOpts with
     | none => []
     | some b =>
       if !ver.lessThan v530 && isHelmEnabled buildOptions then
         (if b.kubeVersion = "" then [] else ["--helm-kube-version", b.kubeVersion]) ++
           b.apiVersions.flatMap (fun v => ["--helm-api-versions", v])
       else [])

/-- The final build command line (kustomize.go:381-387): plain
`build <path>` unless non-empty raw build options are supplied. -/
def buildParams (k : Kmodel) (buildOptions : Option String)
    (buildOpts : Option BuildOptsModel) (w : World) : List String :=
  match buildOptions with
  | some bo =>
    if bo = "" then ["build", k.path]
    else parseKustomizeBuildOptions k bo buildOpts w.version
  | none => ["build", k.path]

/-- The tail of `Build` (kustomize.go:397-407): split the build output into
objects, derive the image inventory, and redact the repository root from
every command-log entry. -/
def finishBuild (k : Kmodel) (w : World) (st : BuildState) (out : String) :
    Except (String × BuildState)
      (List (List (String × Yaml)) × List String × List String × BuildState) :=
  match w.splitYaml out with
  | .error e => .error (e, st)
  | .ok objs =>
    .ok (objs, getImageParameters objs,
      st.commands.map (fun c => replaceAllStr c k.repoRoot "."), st)

/-- `Build` (kustomize.go:127-408).  On success it returns the resource
objects, the image inventory, the redacted command log and — as model
bookkeeping used only by the specification — the final `BuildState` (raw log
and invocation count).  On failure it returns the error together with the
`BuildState` accumulated up to the failure (which the Go function discards:
see `buildResult`). -/
def buildCore (k : Kmodel) (opts : Option KOpts) (buildOptions : Option String)
    (buildOpts : Option BuildOptsModel) (w : World) :
    Except (String × BuildState)
      (List (List (String × Yaml)) × List String × List String × BuildState) :=
  match w.credsOk with
  | .error e => .error (e, ⟨[], 0⟩)
  | .ok _ =>
    match (match opts with
           | some o => editSteps k o w ⟨[], 0⟩
           | none => .ok ⟨[], 0⟩) with
    | .error e => .error e
    | .ok st =>
      match execRun w st (getBinaryPath k) (buildParams k buildOptions buildOpts w) with
      | .error e => .error e
      | .ok (st2, out) => finishBuild k w st2 out

/-- The four return values of `Build` exactly as the Go function produces
them: on success `(objs, images, redactedCommands, nil)`; on every error path
`(nil, nil, nil, err)` — the accumulated command log is discarded. -/
def buildResult (k : Kmodel) (opts : Option KOpts) (buildOptions : Option String)
    (buildOpts : Option BuildOptsModel) (w : World) :
    Option (List (List (String × Yaml))) × Option (List String) ×
      Option (List String) × Option String :=
  match buildCore k opts buildOptions buildOpts w with
  | .ok (objs, images, log, _) => (some objs, some images, some log, none)
  | .error (e, _) => (none, none, none, some e)

/- Concrete fixtures used by witnesses and counterexamples. -/

/-- A concrete receiver: repository root `/repo`, app path `/repo/app`,
default binary. -/
def kDemo : Kmodel := ⟨"/repo", "/repo/app", ""⟩

/-- A baseline world where every collaborator succeeds. -/
def wBase : World where
  version := ⟨3, 8, 5, none⟩
  credsOk := .ok ()
  run := fun _ => .ok "out"
  logCmd := fun b args => String.intercalate " " (b :: args)
  envsubst := id
  kustFile := some "kustomization.yaml"
  readOk := .ok ()
  parsed := .ok (Yaml.map [])
  marshalOk := .ok ()
  statFileOk := .ok ()
  writeOk := .ok ()
  openRoot := .ok ()
  rel := fun c => .ok c
  stat := fun _ => true
  splitYaml := fun _ => .ok [[("kind", Yaml.str "ConfigMap")]]

/-- A world whose path has no kustomization file. -/
def wNoKustFile : World := { wBase with kustFile := none }

/-- A world whose detected tool version is 3.6.0. -/
def wOld36 : World := { wBase with version := ⟨3, 6, 0, none⟩ }

/-- A world (version 3.7.0) where every component existence check fails. -/
def wAllMissing : World := { wBase with version := ⟨3, 7, 0, none⟩, stat := fun _ => false }

/-- Customizations: a name prefix plus an inline patch. -/
def optsPrefixPatches : KOpts := { namePfx := "p", patches := [Yaml.null] }

/-- Customizations: a name prefix plus a component. -/
def optsPrefixComponents : KOpts := { namePfx := "p", components := ["c"] }

/-- Customizations: two components with the skip-missing flag. -/
def optsSkipMissing : KOpts :=
  { components := ["comp1", "comp2"], ignoreMissingComponents := true }

/-- A kustomization document that already has a `patches` sequence. -/
def kmapWithPatches : List (String × Yaml) :=
  [("resources", Yaml.str "base"), ("patches", Yaml.seq [Yaml.str "q1", Yaml.str "q2"])]

/-- A kustomization document without a `patches` key. -/
def kmapNoPatches : List (String × Yaml) := [("resources", Yaml.str "base")]

/-- A containers-style sequence: one element with an `image` and a nested
mapping that itself holds an `image`, one scalar, one image-less mapping. -/
def containersDemo : List Yaml :=
  [Yaml.map [("image", Yaml.str "a"), ("nested", Yaml.map [("image", Yaml.str "zzz")])],
   Yaml.str "x",
   Yaml.map [("name", Yaml.str "noimage")]]

end Kustomize

namespace Kustomize

/- Helper lemmas. -/

/-- A string with a non-empty left part is non-empty. -/
theorem append_ne_empty_left (a b : String) (h : a ≠ "") : a ++ b ≠ "" := by
  intro hc
  apply h
  have hd : a.data ++ b.data = [] := by
    have h2 := congrArg String.data hc
    simpa [String.data_append] using h2
  have ha : a.data = [] := (List.append_eq_nil.mp hd).1
  cases a
  simp_all

/-- A formatted `key:value` token is never empty. -/
theorem pairArg_ne_empty (p : String × String) : pairArg p ≠ "" := by
  intro hc
  have hd := congrArg String.data hc
  simp [pairArg, String.data_append] at hd

/-- `commaJoin` of a list with at least two entries. -/
theorem commaJoin_cons_cons (a b : String) (t : List String) :
    commaJoin (a :: b :: t) = a ++ "," ++ commaJoin (b :: t) := by
  simp [commaJoin, String.append_assoc]

/-- The comma-folding loop of `mapToEditAddArgs`, started from a non-empty
accumulator, produces the comma-join of accumulator and remaining tokens. -/
theorem joinFold_go (l : List String) (arg : String) (h : arg ≠ "") :
    l.foldl (fun a s => (if a ≠ "" then a ++ "," else a) ++ s) arg = commaJoin (arg :: l) := by
  induction l generalizing arg with
  | nil => simp [commaJoin]
  | cons s t ih =>
    have hne : arg ++ "," ++ s ≠ "" :=
      append_ne_empty_left _ _ (append_ne_empty_left _ _ h)
    calc (s :: t).foldl (fun a s => (if a ≠ "" then a ++ "," else a) ++ s) arg
        = t.foldl (fun a s => (if a ≠ "" then a ++ "," else a) ++ s) (arg ++ "," ++ s) := by
          simp [h, String.append_assoc]
      _ = commaJoin ((arg ++ "," ++ s) :: t) := ih _ hne
      _ = commaJoin (arg :: s :: t) := by
          cases t with
          | nil => simp [commaJoin, String.append_assoc]
          | cons u t2 => simp [commaJoin_cons_cons, String.append_assoc]

/-- Go map update then lookup of the same key. -/
theorem lookupY_setKeyY_self (m : List (String × Yaml)) (key : String) (v : Yaml) :
    lookupY (setKeyY m key v) key = some v := by
  induction m with
  | nil => simp [setKeyY, lookupY]
  | cons p rest ih =>
    obtain ⟨k, w⟩ := p
    by_cases hk : k = key
    · simp [setKeyY, hk, lookupY]
    · simp [setKeyY, hk, lookupY, ih]

/-- Go map update leaves every other key unchanged. -/
theorem lookupY_setKeyY_other (m : List (String × Yaml)) (key key2 : String) (v : Yaml)
    (h : key2 ≠ key) :
    lookupY (setKeyY m key v) key2 = lookupY m key2 := by
  induction m with
  | nil => simp [setKeyY, lookupY, Ne.symm h]
  | cons p rest ih =>
    obtain ⟨k, w⟩ := p
    by_cases hk : k = key
    · subst hk
      simp [setKeyY, lookupY, Ne.symm h]
    · by_cases hk2 : k = key2 <;> simp [setKeyY, hk, lookupY, hk2, ih, h]

/-- The containers arm is exactly the direct `image`-field extraction. -/
theorem containerSeq_eq_filterMap (elems : List Yaml) :
    containerSeq elems = elems.filterMap (fun e =>
      match e with
      | Yaml.map mm => (lookupY mm "image").map yamlToString
      | _ => none) := by
  induction elems with
  | nil => rfl
  | cons e rest ih =>
    cases e <;> simp [containerSeq, ih]
    case map mm => cases h : lookupY mm "image" <;> simp [h]

/-- The generic sequence arm recurses exactly into mapping-shaped elements. -/
theorem genericSeq_eq_flatMap (elems : List Yaml) :
    genericSeq elems = elems.flatMap (fun e =>
      match e with
      | Yaml.map mm => getImagesEntries mm
      | _ => []) := by
  induction elems with
  | nil => rfl
  | cons e rest ih => cases e <;> simp [genericSeq, ih]

/- Claim theorems. -/

/-- Claim C1: for every non-empty label or annotation map (given in iteration
order), a detected version strictly below 3.8.5 encodes all `key:value` pairs
as one comma-joined argument, and a version at or above 3.8.5 emits one
argument per pair. -/
theorem mapToEditAddArgs_versionGate (val : List (String × String)) (ver : Version)
    (h : val ≠ []) :
    (ver.lessThan v385 = true →
      mapToEditAddArgs val ver = [commaJoin (val.map pairArg)]) ∧
    (ver.lessThan v385 = false →
      mapToEditAddArgs val ver = val.map pairArg) := by
  constructor
  · intro hv
    cases val with
    | nil => exact absurd rfl h
    | cons p ps =>
      unfold mapToEditAddArgs
      rw [hv]
      simp only [if_true, List.foldl_cons, List.map_cons]
      have h0 : ((if ("" : String) ≠ "" then "" ++ "," else "") ++ pairArg p) = pairArg p := by
        simp
      rw [h0, ← List.foldl_map pairArg (fun a s => (if a ≠ "" then a ++ "," else a) ++ s),
        joinFold_go _ _ (pairArg_ne_empty p)]
  · intro hv
    unfold mapToEditAddArgs
    rw [hv]
    simp

/-- Witness for C1 at the map `a:1, b:2` and versions 3.8.4 / 3.8.5. -/
theorem mapToEditAddArgs_versionGate_check :
    mapToEditAddArgs [("a", "1"), ("b", "2")] ⟨3, 8, 4, none⟩ = ["a:1,b:2"] ∧
    mapToEditAddArgs [("a", "1"), ("b", "2")] ⟨3, 8, 5, none⟩ = ["a:1", "b:2"] := by
  constructor
  · have h := (mapToEditAddArgs_versionGate [("a", "1"), ("b", "2")] ⟨3, 8, 4, none⟩
      (by decide)).1 (by decide)
    exact h.trans (by decide)
  · have h := (mapToEditAddArgs_versionGate [("a", "1"), ("b", "2")] ⟨3, 8, 5, none⟩
      (by decide)).2 (by decide)
    exact h.trans (by decide)

/-- Claim C3: merging new patches into a descriptor with an existing
`patches` sequence appends them in order; without a `patches` key it sets
exactly the new list; every other top-level key keeps its parsed value. -/
theorem mergePatches_spec (kmap : List (String × Yaml)) (ps : List Yaml) :
    (∀ old, lookupY kmap "patches" = some (Yaml.seq old) →
      mergeKustomizationPatches kmap ps =
        Except.ok (setKeyY kmap "patches" (Yaml.seq (old ++ ps))) ∧
      lookupY (setKeyY kmap "patches" (Yaml.seq (old ++ ps))) "patches" =
        some (Yaml.seq (old ++ ps)) ∧
      ∀ key, key ≠ "patches" →
        lookupY (setKeyY kmap "patches" (Yaml.seq (old ++ ps))) key = lookupY kmap key) ∧
    (lookupY kmap "patches" = none →
      mergeKustomizationPatches kmap ps =
        Except.ok (setKeyY kmap "patches" (Yaml.seq ps)) ∧
      lookupY (setKeyY kmap "patches" (Yaml.seq ps)) "patches" = some (Yaml.seq ps) ∧
      ∀ key, key ≠ "patches" →
        lookupY (setKeyY kmap "patches" (Yaml.seq ps)) key = lookupY kmap key) := by
  constructor
  · intro old hold
    refine ⟨?_, lookupY_setKeyY_self _ _ _, fun key hk => lookupY_setKeyY_other _ _ _ _ hk⟩
    unfold mergeKustomizationPatches
    rw [hold]
  · intro hnone
    refine ⟨?_, lookupY_setKeyY_self _ _ _, fun key hk => lookupY_setKeyY_other _ _ _ _ hk⟩
    unfold mergeKustomizationPatches
    rw [hnone]

/-- Witness for C3: merging `[P1]` into `patches: [Q1, Q2]` yields
`[Q1, Q2, P1]`, merging into a descriptor without `patches` yields `[P1]`,
and the `resources` key is untouched. -/
theorem mergePatches_spec_check :
    mergeKustomizationPatches kmapWithPatches [Yaml.str "p1"] =
      Except.ok [("resources", Yaml.str "base"),
        ("patches", Yaml.seq [Yaml.str "q1", Yaml.str "q2", Yaml.str "p1"])] ∧
    lookupY [("resources", Yaml.str "base"),
        ("patches", Yaml.seq [Yaml.str "q1", Yaml.str "q2", Yaml.str "p1"])] "resources" =
      lookupY kmapWithPatches "resources" ∧
    mergeKustomizationPatches kmapNoPatches [Yaml.str "p1"] =
      Except.ok [("resources", Yaml.str "base"), ("patches", Yaml.seq [Yaml.str "p1"])] := by
  have h1 := (mergePatches_spec kmapWithPatches [Yaml.str "p1"]).1
    [Yaml.str "q1", Yaml.str "q2"] rfl
  have h2 := (mergePatches_spec kmapNoPatches [Yaml.str "p1"]).2 rfl
  exact ⟨h1.1, h1.2.2 "resources" (by decide), h2.1⟩

/-- Claim C5: at each mapping, a `containers`/`initContainers` key holding a
sequence contributes the direct `image`-field string of each mapping-shaped
element without further recursion; any other sequence-valued key is recursed
only into its mapping-shaped elements; a mapping-valued key is recursed
directly; scalar values contribute nothing. -/
theorem getImages_perKey_semantics (key : String) (elems : List Yaml)
    (m rest : List (String × Yaml)) :
    ((key = "containers" ∨ key = "initContainers") →
      getImagesEntries ((key, Yaml.seq elems) :: rest) =
        (elems.filterMap (fun e =>
          match e with
          | Yaml.map mm => (lookupY mm "image").map yamlToString
          | _ => none)) ++ getImagesEntries rest) ∧
    (¬(key = "containers" ∨ key = "initContainers") →
      getImagesEntries ((key, Yaml.seq elems) :: rest) =
        (elems.flatMap (fun e =>
          match e with
          | Yaml.map mm => getImagesEntries mm
          | _ => [])) ++ getImagesEntries rest) ∧
    getImagesEntries ((key, Yaml.map m) :: rest) =
      getImagesEntries m ++ getImagesEntries rest ∧
    (∀ s, getImagesEntries ((key, Yaml.str s) :: rest) = getImagesEntries rest) ∧
    (∀ n, getImagesEntries ((key, Yaml.num n) :: rest) = getImagesEntries rest) ∧
    (∀ b, getImagesEntries ((key, Yaml.bool b) :: rest) = getImagesEntries rest) ∧
    getImagesEntries ((key, Yaml.null) :: rest) = getImagesEntries rest := by
  refine ⟨?_, ?_, ?_, ?_, ?_, ?_, ?_⟩
  · intro hk
    simp [getImagesEntries, entryImages, if_pos hk, containerSeq_eq_filterMap]
  · intro hk
    simp [getImagesEntries, entryImages, if_neg hk, genericSeq_eq_flatMap]
  · simp [getImagesEntries, entryImages]
  · intro s; simp [getImagesEntries, entryImages]
  · intro n; simp [getImagesEntries, entryImages]
  · intro b; simp [getImagesEntries, entryImages]
  · simp [getImagesEntries, entryImages]

/-- Witness for C5: on a containers sequence the direct images are taken
(`a`) and the nested image (`zzz`) is not recursed into; under another key
the same sequence is recursed generically. -/
theorem getImages_perKey_semantics_check :
    getImagesEntries [("containers", Yaml.seq containersDemo)] = ["a"] ∧
    getImagesEntries [("spec", Yaml.seq containersDemo)] =
      getImagesEntries [("image", Yaml.str "a"),
        ("nested", Yaml.map [("image", Yaml.str "zzz")])] := by
  constructor
  · have h := (getImages_perKey_semantics "containers" containersDemo [] []).1 (Or.inl rfl)
    exact h.trans (by rfl)
  · have h := (getImages_perKey_semantics "spec" containersDemo [] []).2.1 (by decide)
    exact h.trans (by rfl)

/-- Claim C6: the image inventory is lexicographically sorted, and duplicates
survive — each image occurs in the result exactly as often as the scan finds
it across all input objects. -/
theorem imageParameters_sorted_and_counts (objs : List (List (String × Yaml))) :
    List.Sorted (fun a b : String => a ≤ b) (getImageParameters objs) ∧
    ∀ s : String,
      (getImageParameters objs).count s = (objs.flatMap getImagesEntries).count s := by
  constructor
  · exact List.sorted_insertionSort _ _
  · intro s
    exact (List.perm_insertionSort _ _).count_eq s

/-- The missing-component filter drops everything when every component's
resolved path fails the existence check. -/
theorem filterComponents_allMissing (w : World) (cs : List String)
    (h : ∀ c ∈ cs, ∃ p, w.rel c = Except.ok p ∧ w.stat p = false) :
    filterComponents w cs = Except.ok [] := by
  induction cs with
  | nil => rfl
  | cons c t ih =>
    obtain ⟨p, hp, hs⟩ := h c (List.mem_cons_self c t)
    have ht := ih (fun c2 hc2 => h c2 (List.mem_cons_of_mem _ hc2))
    simp [filterComponents, hp, ht, hs]

/-- Claim C7 (as pipeline behavior): the documented raw version output parses
to 3.8.1; when the normalized output contains no semver-shaped substring, or
the version invocation fails, the safe resolver returns the maximal sentinel
`v99.99.99` instead of an error. -/
theorem getSemverSafe_behavior :
    getSemverModel (Except.ok "\x7bkustomize/v3.8.1  2020-07-16T00:58:46Z  \x7d") =
      Except.ok ⟨3, 8, 1, none⟩ ∧
    getSemverSafeModel (Except.ok "\x7bkustomize/v3.8.1  2020-07-16T00:58:46Z  \x7d") =
      ⟨3, 8, 1, none⟩ ∧
    (∀ s : String, findFirstSemver (normalizeVersionOutput s).data = none →
      getSemverSafeModel (Except.ok s) = unknownVersionModel) ∧
    (∀ e : String, getSemverSafeModel (Except.error e) = unknownVersionModel) := by
  refine ⟨rfl, rfl, ?_, ?_⟩
  · intro s hs
    simp [getSemverSafeModel, getSemverModel, hs]
  · intro e
    rfl

/-- Witness for C7: a version-free output and a failing invocation both
resolve to the sentinel. -/
theorem getSemverSafe_behavior_check :
    getSemverSafeModel (Except.ok "no digits here") = unknownVersionModel ∧
    getSemverSafeModel (Except.error "boom") = unknownVersionModel := by
  have h := getSemverSafe_behavior
  exact ⟨h.2.2.1 "no digits here" (by decide), h.2.2.2 "boom"⟩

/-- Claim C2, amended: a build that fails (in particular with a configuration
error) returns no partial output at all — objects, images and the command log
are all nil; the entries accumulated before the failure are discarded and
only the error is returned. -/
theorem build_configError_returns_nothing (k : Kmodel) (opts : Option KOpts)
    (bo : Option String) (bopts : Option BuildOptsModel) (w : World) (e : String)
    (st : BuildState)
    (h : buildCore k opts bo bopts w = Except.error (e, st)) :
    buildResult k opts bo bopts w = (none, none, none, some e) := by
  unfold buildResult
  rw [h]

/-- Witness for the amended C2 at a concrete failing build. -/
theorem build_configError_returns_nothing_check :
    buildResult kDemo (some optsPrefixPatches) none none wNoKustFile =
      (none, none, none, some "kustomization file not found in the path") :=
  build_configError_returns_nothing kDemo (some optsPrefixPatches) none none wNoKustFile
    "kustomization file not found in the path"
    ⟨["kustomize edit set nameprefix -- p"], 1⟩ rfl

/-- Counterexample to C2 as stated: a missing-descriptor configuration error
occurring after a successful name-prefix invocation.  One command-log entry
was recorded before the failing step, yet the returned command-log value is
`none` — it does not contain the accumulated entries. -/
theorem build_logDiscarded_cex :
    buildResult kDemo (some optsPrefixPatches) none none wNoKustFile =
      (none, none, none, some "kustomization file not found in the path") ∧
    buildCore kDemo (some optsPrefixPatches) none none wNoKustFile =
      Except.error ("kustomization file not found in the path",
        ⟨["kustomize edit set nameprefix -- p"], 1⟩) :=
  ⟨rfl, rfl⟩

/-- Claim C4, amended: with a non-empty components list and a detected
version strictly below 3.7.0, the build fails with the explicit "not
supported" error before any invocation of the components step; when no other
customization field is non-empty (so no earlier step runs a command), the
whole build performs zero external invocations and logs nothing. -/
theorem components_versionGate_noInvocations (k : Kmodel) (cs : List String) (im : Bool)
    (bo : Option String) (bopts : Option BuildOptsModel) (w : World)
    (h1 : w.credsOk = Except.ok ()) (h2 : cs ≠ [])
    (h3 : w.version.lessThan v370 = true) :
    buildCore k (some { components := cs, ignoreMissingComponents := im }) bo bopts w =
      Except.error ("kustomize components require kustomize v3.7.0 and above", ⟨[], 0⟩) := by
  cases cs with
  | nil => exact absurd rfl h2
  | cons c t =>
    unfold buildCore
    rw [h1]
    simp [editSteps, namePrefixStep, nameSuffixStep, imagesStep, replicasStep, labelsStep,
      annotationsStep, namespaceStep, patchesStep, componentsStep, h3, Bind.bind, Except.bind]

/-- Witness for the amended C4: only components set, version 3.6.0 — the
failure state carries an empty log and an invocation count of zero. -/
theorem components_versionGate_noInvocations_check :
    buildCore kDemo (some { components := ["c"], ignoreMissingComponents := false })
      none none wOld36 =
      Except.error ("kustomize components require kustomize v3.7.0 and above", ⟨[], 0⟩) :=
  components_versionGate_noInvocations kDemo ["c"] false none none wOld36 rfl
    (by decide) rfl

/-- Counterexample to C4 as stated: a spec with a name prefix and a
component, version 3.6.0.  The build does fail with the "not supported"
error, but the failure state records one external invocation (the name-prefix
edit), not zero. -/
theorem components_invocationBeforeGate_cex :
    buildCore kDemo (some optsPrefixComponents) none none wOld36 =
      Except.error ("kustomize components require kustomize v3.7.0 and above",
        ⟨["kustomize edit set nameprefix -- p"], 1⟩) :=
  rfl

/-- Claim C8: the command log returned by a successful build is the
accumulated log with every occurrence of the repository-root path replaced by
`.` (via `strings.ReplaceAll`) in every entry. -/
theorem build_log_redaction (k : Kmodel) (opts : Option KOpts) (bo : Option String)
    (bopts : Option BuildOptsModel) (w : World)
    (objs : List (List (String × Yaml))) (images log : List String) (st : BuildState)
    (h : buildCore k opts bo bopts w = Except.ok (objs, images, log, st)) :
    log = st.commands.map (fun c => replaceAllStr c k.repoRoot ".") := by
  unfold buildCore at h
  split at h
  · exact Except.noConfusion h
  · split at h
    · exact Except.noConfusion h
    · split at h
      · exact Except.noConfusion h
      · unfold finishBuild at h
        split at h
        · exact Except.noConfusion h
        · simp only [Except.ok.injEq, Prod.mk.injEq] at h
          obtain ⟨h1, h2, h3, h4⟩ := h
          rw [← h3, ← h4]

/-- Witness for C8: the build command `kustomize build /repo/app` is returned
as `kustomize build ./app`. -/
theorem build_log_redaction_check :
    (["kustomize build ./app"] : List String) =
      (⟨["kustomize build /repo/app"], 1⟩ : BuildState).commands.map
        (fun c => replaceAllStr c kDemo.repoRoot ".") :=
  build_log_redaction kDemo none none none wBase [[("kind", Yaml.str "ConfigMap")]] []
    ["kustomize build ./app"] ⟨["kustomize build /repo/app"], 1⟩ rfl

/-- Claim C9: with the skip-missing flag set and every component path failing
the existence check, the components step still performs (and logs) an
`edit add component` invocation with zero component arguments. -/
theorem components_allMissing_emptyInvocation (k : Kmodel) (o : KOpts) (w : World)
    (st : BuildState)
    (h2 : o.ignoreMissingComponents = true)
    (h3 : w.version.lessThan v370 = false)
    (h4 : w.openRoot = Except.ok ())
    (h5 : ∀ c ∈ o.components, ∃ p, w.rel c = Except.ok p ∧ w.stat p = false)
    (h1 : o.components ≠ []) :
    componentsStep k o w st = editRun w st (getBinaryPath k) ["edit", "add", "component"] := by
  obtain ⟨c, t, hct⟩ := List.exists_cons_of_ne_nil h1
  have hf : filterComponents w o.components = Except.ok [] :=
    filterComponents_allMissing w _ h5
  unfold componentsStep
  rw [hct]
  simp [h3, resolveComponents, h2, h4, hf]

/-- Witness for C9 at two all-missing components: the `edit add component`
invocation runs with no component argument and is recorded in the log. -/
theorem components_allMissing_emptyInvocation_check :
    componentsStep kDemo optsSkipMissing wAllMissing ⟨[], 0⟩ =
      Except.ok ⟨["kustomize edit add component"], 1⟩ := by
  have h := components_allMissing_emptyInvocation kDemo optsSkipMissing wAllMissing ⟨[], 0⟩
    rfl rfl rfl (by intro c hc; exact ⟨c, rfl, rfl⟩) (by decide)
  exact h.trans rfl

/-- Claim C10: a `containers`/`initContainers` key whose value is a mapping
(not a sequence) gets no special container handling — it is recursed into
generically, so images reachable through the ordinary recursion rules inside
it are still collected. -/
theorem containersMap_genericRecursion (m rest : List (String × Yaml)) :
    getImagesEntries (("containers", Yaml.map m) :: rest) =
      getImagesEntries m ++ getImagesEntries rest ∧
    getImagesEntries (("initContainers", Yaml.map m) :: rest) =
      getImagesEntries m ++ getImagesEntries rest ∧
    getImagesEntries [("containers",
      Yaml.map [("containers", Yaml.seq [Yaml.map [("image", Yaml.str "deep")]])])] =
      ["deep"] := by
  refine ⟨?_, ?_, ?_⟩
  · simp [getImagesEntries, entryImages]
  · simp [getImagesEntries, entryImages]
  · rfl

end Kustomize
